import Mathlib

/-!
Shallow embedding of the smart-env core (src/core/parser.ts and
src/core/validator.ts): the per-type value parser, the non-throwing
schema validator and the throwing typed parser, together with theorems
about their behaviour.

JavaScript platform primitives that the core calls (Number(), the WHATWG
URL constructor, JSON.parse, String.prototype.toLowerCase/trim) are
modelled by executable Lean functions at the fidelity the validator
observes; each model carries a doc comment stating its scope.
JavaScript numbers are modelled as rationals, with `none`/`nan` standing
for NaN. JavaScript objects are modelled as insertion-ordered lists of
key/value bindings with unique keys.
-/

namespace SmartEnv

/-- JSON values, the possible results of the JSON.parse platform call. -/
inductive Json where
  | null
  | bool (b : Bool)
  | num (q : ℚ)
  | str (s : String)
  | arr (elems : List Json)
  | obj (fields : List (String × Json))

/-- JavaScript runtime values flowing through parseValue: the `any`-typed
`value` component of its result, and the `any`-typed `default` field of a
descriptor. `undef` is JavaScript `undefined`; `nan` is the NaN number. -/
inductive JsValue where
  | undef
  | nullV
  | str (s : String)
  | num (q : ℚ)
  | nan
  | boolV (b : Bool)
  | jsonV (j : Json)

/-- A compiled regular expression: the descriptor-owned pattern handle.
Its matching behaviour is abstract (a Boolean test function, modelling
RegExp.prototype.test) and `source` models its printed form used in
error messages. -/
structure RegExp where
  source : String
  test : String → Bool

/-- The `type` tag of a descriptor. `unknown` models a tag outside the
six supported ones, reachable only from unchecked external schemas and
handled by the parser's defensive default branch. -/
inductive EnvVarType where
  | string
  | number
  | boolean
  | url
  | json
  | enum
  | unknown (tag : String)

/-- The string form of a type tag, as interpolated into error messages. -/
def EnvVarType.name : EnvVarType → String
  | .string => "string"
  | .number => "number"
  | .boolean => "boolean"
  | .url => "url"
  | .json => "json"
  | .enum => "enum"
  | .unknown tag => tag

/-- An environment variable descriptor (EnvVarConfig): the union of the
six per-type configuration interfaces, flattened into one record of
optional fields as it exists at JavaScript runtime. -/
structure EnvVarConfig where
  type : EnvVarType
  required : Option Bool := none
  default : Option JsValue := none
  description : Option String := none
  minLength : Option Nat := none
  maxLength : Option Nat := none
  pattern : Option RegExp := none
  min : Option ℚ := none
  max : Option ℚ := none
  integer : Option Bool := none
  protocols : Option (List String) := none
  values : List String := []

/-- A validation error record. The source field `variable` is renamed
`varName` because `variable` is a Lean keyword. -/
structure ValidationError where
  varName : String
  message : String
  expected : Option String := none
  received : Option String := none
  deriving DecidableEq

/-- The result record `{ value: any; error?: ValidationError }` returned
by parseValue and its per-type helpers. -/
structure ParseResult where
  value : JsValue
  error : Option ValidationError := none

/-- Model of JavaScript String() applied to a finite number: optional
sign, integer part, and a terminating decimal fraction whenever the
denominator divides a power of ten (always the case for double values
produced by `jsNumber`); other rationals render as num/den and never
arise from `jsNumber`. -/
def numToStr (q : ℚ) : String :=
  let sign := if q < 0 then "-" else ""
  let n := q.num.natAbs
  let d := q.den
  match (List.range 100).find? (fun k => decide (d ∣ 10 ^ k)) with
  | some k =>
    if k = 0 then sign ++ toString n
    else
      let scaled := n * 10 ^ k / d
      let ip := scaled / 10 ^ k
      let fp := scaled % 10 ^ k
      let fpStr := toString fp
      let padded := String.mk (List.replicate (k - fpStr.length) '0') ++ fpStr
      sign ++ toString ip ++ "." ++ padded
  | none => sign ++ toString n ++ "/" ++ toString d

/-- Model of String.prototype.toLowerCase, character by character. -/
def jsToLower (s : String) : String :=
  String.mk (s.toList.map Char.toLower)

/-- Model of String.prototype.trim and of the whitespace stripping the
Number() conversion performs: whitespace removed from both ends. -/
def jsTrim (s : String) : String :=
  String.mk (((s.toList.dropWhile Char.isWhitespace).reverse.dropWhile Char.isWhitespace).reverse)

/-- Split a character list at every occurrence of a separator, keeping
empty segments, as String.prototype.split does. -/
def splitOnChar (sep : Char) : List Char → List (List Char)
  | [] => [[]]
  | c :: cs =>
    if c = sep then [] :: splitOnChar sep cs
    else
      match splitOnChar sep cs with
      | [] => [[c]]
      | g :: gs => (c :: g) :: gs

/-- Model of String.prototype.slice(0, -1): every character but the last. -/
def sliceDropLast (s : String) : String :=
  String.mk s.toList.dropLast

/-- Digits of a numeral folded into a natural number. -/
def digitsToNat (cs : List Char) : ℕ :=
  cs.foldl (fun acc c => 10 * acc + (c.toNat - 48)) 0

/-- The rational value of an optional-sign decimal literal given as
integer-part digits and fraction digits. -/
def decimalValue (neg : Bool) (ip fp : List Char) : ℚ :=
  let n : ℕ := digitsToNat ip * 10 ^ fp.length + digitsToNat fp
  mkRat (if neg then -(n : ℤ) else (n : ℤ)) (10 ^ fp.length)

/-- Model of the JavaScript Number() conversion, restricted to
optional-sign decimal literals (integer part, optional fraction), with
surrounding whitespace trimmed and the empty string converting to 0, as
in JavaScript. `none` stands for NaN. Hexadecimal, exponent and
Infinity forms are not modelled and yield `none`. -/
def jsNumber (s : String) : Option ℚ :=
  let t := jsTrim s
  if t = "" then some 0
  else
    let (neg, body) :=
      match t.toList with
      | '-' :: rest => (true, rest)
      | '+' :: rest => (false, rest)
      | cs => (false, cs)
    match splitOnChar '.' body with
    | [ip] =>
      if ip ≠ [] ∧ ip.all Char.isDigit then some (decimalValue neg ip [])
      else none
    | [ip, fp] =>
      if (ip ≠ [] ∨ fp ≠ []) ∧ ip.all Char.isDigit ∧ fp.all Char.isDigit then
        some (decimalValue neg ip fp)
      else none
    | _ => none

/-- The `pattern` check of parseString: third and last check, reached
when the length checks passed. -/
def strPatternCheck (value : String) (config : EnvVarConfig) (variableName : String) :
    ParseResult :=
  match config.pattern with
  | some pattern =>
    if pattern.test value then ⟨.str value, none⟩
    else
      ⟨.str value, some
        { varName := variableName
          message := "String does not match required pattern: " ++ pattern.source
          expected := some ("string matching " ++ pattern.source)
          received := some value }⟩
  | none => ⟨.str value, none⟩

/-- The `maxLength` check of parseString: second check, falling through
to the pattern check. -/
def strMaxCheck (value : String) (config : EnvVarConfig) (variableName : String) :
    ParseResult :=
  match config.maxLength with
  | some m =>
    if value.length > m then
      ⟨.str value, some
        { varName := variableName
          message := "String is too long (maximum: " ++ toString m ++ " characters)"
          expected := some ("string with at most " ++ toString m ++ " characters")
          received := some ("string with " ++ toString value.length ++ " characters") }⟩
    else strPatternCheck value config variableName
  | none => strPatternCheck value config variableName

/-- parseString from src/core/parser.ts: minLength, then maxLength,
then pattern; the first failing check returns immediately with the raw
string as value. String length models the JavaScript `length` property. -/
def parseString (value : String) (config : EnvVarConfig) (variableName : String) :
    ParseResult :=
  match config.minLength with
  | some m =>
    if value.length < m then
      ⟨.str value, some
        { varName := variableName
          message := "String is too short (minimum: " ++ toString m ++ " characters)"
          expected := some ("string with at least " ++ toString m ++ " characters")
          received := some ("string with " ++ toString value.length ++ " characters") }⟩
    else strMaxCheck value config variableName
  | none => strMaxCheck value config variableName

/-- The `max` check of parseNumber: last check. -/
def numMaxCheck (num : ℚ) (config : EnvVarConfig) (variableName : String) : ParseResult :=
  match config.max with
  | some mx =>
    if num > mx then
      ⟨.num num, some
        { varName := variableName
          message := "Number exceeds maximum value (" ++ numToStr mx ++ ")"
          expected := some ("number <= " ++ numToStr mx)
          received := some (numToStr num) }⟩
    else ⟨.num num, none⟩
  | none => ⟨.num num, none⟩

/-- The `min` check of parseNumber, falling through to the max check. -/
def numMinCheck (num : ℚ) (config : EnvVarConfig) (variableName : String) : ParseResult :=
  match config.min with
  | some mn =>
    if num < mn then
      ⟨.num num, some
        { varName := variableName
          message := "Number is below minimum value (" ++ numToStr mn ++ ")"
          expected := some ("number >= " ++ numToStr mn)
          received := some (numToStr num) }⟩
    else numMaxCheck num config variableName
  | none => numMaxCheck num config variableName

/-- parseNumber from src/core/parser.ts: Number() conversion, then the
integer flag, then min, then max, first failing check wins.
`Number.isInteger` on the rational model is `den = 1`. -/
def parseNumber (value : String) (config : EnvVarConfig) (variableName : String) :
    ParseResult :=
  match jsNumber value with
  | none =>
    ⟨.nan, some
      { varName := variableName
        message := "Invalid number format"
        expected := some "number"
        received := some value }⟩
  | some num =>
    if config.integer.getD false ∧ num.den ≠ 1 then
      ⟨.num num, some
        { varName := variableName
          message := "Value must be an integer"
          expected := some "integer"
          received := some value }⟩
    else numMinCheck num config variableName

/-- parseBoolean from src/core/parser.ts: lower-case then trim, match
against the truthy and falsy literal groups; anything else is an
invalid-boolean error with value false. -/
def parseBoolean (value : String) (_config : EnvVarConfig) (variableName : String) :
    ParseResult :=
  let lowerValue := jsTrim (jsToLower value)
  if lowerValue = "true" ∨ lowerValue = "1" ∨ lowerValue = "yes" then
    ⟨.boolV true, none⟩
  else if lowerValue = "false" ∨ lowerValue = "0" ∨ lowerValue = "no" then
    ⟨.boolV false, none⟩
  else
    ⟨.boolV false, some
      { varName := variableName
        message := "Invalid boolean value"
        expected := some "true, false, 1, 0, yes, or no"
        received := some value }⟩

/-- The observable part of a parsed WHATWG URL: `protocol` is the
lower-cased scheme including its trailing colon (as in the `protocol`
property), `rest` is the remainder of the input after the colon. -/
structure URLRec where
  protocol : String
  rest : String

/-- Whether a character may occur in a URL scheme after the first. -/
def isSchemeChar (c : Char) : Bool :=
  c.isAlphanum || c = '+' || c = '-' || c = '.'

/-- Model of the WHATWG URL constructor at the fidelity the validator
observes: parsing succeeds exactly when the input starts with a valid
scheme (an ASCII letter followed by letters, digits, plus, minus or
dot) and a colon; the scheme is lower-cased into `protocol` with its
trailing colon and the remainder is kept unparsed. Inputs with no valid
scheme prefix fail to parse, modelling the constructor throwing. -/
def newURL (value : String) : Option URLRec :=
  let cs := value.toList
  let scheme := cs.takeWhile (fun c => decide (c ≠ ':'))
  match cs.dropWhile (fun c => decide (c ≠ ':')) with
  | [] => none
  | _ :: afterColon =>
    if scheme ≠ [] ∧ (scheme.headD 'a').isAlpha ∧ scheme.all isSchemeChar then
      some { protocol := String.mk (scheme.map Char.toLower) ++ ":", rest := String.mk afterColon }
    else none

/-- parseUrl from src/core/parser.ts: construct a URL; on success, when
a `protocols` allow-list is set, the scheme without its trailing colon
(protocol.slice(0, -1)) must be listed; the value returned on success
is the original raw string. -/
def parseUrl (value : String) (config : EnvVarConfig) (variableName : String) :
    ParseResult :=
  match newURL value with
  | some url =>
    match config.protocols with
    | some protocols =>
      if protocols.contains (sliceDropLast url.protocol) then ⟨.str value, none⟩
      else
        ⟨.str value, some
          { varName := variableName
            message := "Invalid URL protocol"
            expected := some ("URL with protocol: " ++ String.intercalate ", " protocols)
            received := some (sliceDropLast url.protocol) }⟩
    | none => ⟨.str value, none⟩
  | none =>
    ⟨.str value, some
      { varName := variableName
        message := "Invalid URL format"
        expected := some "valid URL"
        received := some value }⟩

/-- Model of JSON.parse at the fidelity the validator observes: the
top-level literals null, true, false, decimal numbers, and quoted
strings without escape sequences, with surrounding whitespace trimmed;
other documents (arrays, objects, escapes) are not modelled and yield
`none`. The validator only passes the parsed structure through. -/
def jsonParse (s : String) : Option Json :=
  let t := jsTrim s
  if t = "null" then some .null
  else if t = "true" then some (.bool true)
  else if t = "false" then some (.bool false)
  else
    match t.toList with
    | '"' :: rest =>
      if rest ≠ [] ∧ rest.getLast? = some '"' ∧
          rest.dropLast.all (fun c => decide (c ≠ '"') && decide (c ≠ '\\')) then
        some (.str (String.mk rest.dropLast))
      else none
    | cs =>
      let (neg, body) :=
        match cs with
        | '-' :: rest => (true, rest)
        | cs' => (false, cs')
      match splitOnChar '.' body with
      | [ip] =>
        if ip ≠ [] ∧ ip.all Char.isDigit then some (.num (decimalValue neg ip []))
        else none
      | [ip, fp] =>
        if ip ≠ [] ∧ fp ≠ [] ∧ ip.all Char.isDigit ∧ fp.all Char.isDigit then
          some (.num (decimalValue neg ip fp))
        else none
      | _ => none

/-- parseJson from src/core/parser.ts: deserialize, value is the parsed
structure on success and `undefined` on failure. -/
def parseJson (value : String) (_config : EnvVarConfig) (variableName : String) :
    ParseResult :=
  match jsonParse value with
  | some parsed => ⟨.jsonV parsed, none⟩
  | none =>
    ⟨.undef, some
      { varName := variableName
        message := "Invalid JSON format"
        expected := some "valid JSON string"
        received := some value }⟩

/-- parseEnum from src/core/parser.ts: exact case-sensitive membership
of the raw string in `values`; the value is the raw string either way. -/
def parseEnum (value : String) (config : EnvVarConfig) (variableName : String) :
    ParseResult :=
  if config.values.contains value then ⟨.str value, none⟩
  else
    ⟨.str value, some
      { varName := variableName
        message := "Value must be one of: " ++ String.intercalate ", " config.values
        expected := some (String.intercalate ", " config.values)
        received := some value }⟩

/-- parseValue from src/core/parser.ts. Absent (`none`, modelling
`undefined`) and empty raw values resolve through default, then the
required flag; a non-empty raw string dispatches on the type tag. -/
def parseValue (rawValue : Option String) (config : EnvVarConfig) (variableName : String) :
    ParseResult :=
  if rawValue = none ∨ rawValue = some "" then
    match config.default with
    | some d => ⟨d, none⟩
    | none =>
      if config.required ≠ some false then
        ⟨.undef, some
          { varName := variableName
            message := "Required environment variable is missing"
            expected := some (config.type.name ++ " value")
            received := some "undefined" }⟩
      else ⟨.undef, none⟩
  else
    let value := rawValue.getD ""
    match config.type with
    | .string => parseString value config variableName
    | .number => parseNumber value config variableName
    | .boolean => parseBoolean value config variableName
    | .url => parseUrl value config variableName
    | .json => parseJson value config variableName
    | .enum => parseEnum value config variableName
    | .unknown tag =>
      ⟨.undef, some
        { varName := variableName
          message := "Unknown type: " ++ tag
          received := some value }⟩

/-- A raw environment: the JavaScript object
`Record<string, string | undefined>`, as an insertion-ordered list of
bindings; a binding to `none` models a key explicitly present with value
`undefined`. Keys are unique in the JavaScript object. -/
abbrev Env := List (String × Option String)

/-- A schema: the JavaScript object mapping variable names to
descriptors, as an insertion-ordered list with unique keys
(Object.entries order). -/
abbrev Schema := List (String × EnvVarConfig)

/-- JavaScript property access `env[key]`: `undefined` both when the key
is absent and when it is bound to `undefined`. -/
def envGet (env : Env) (key : String) : Option String :=
  match env.find? (fun kv => kv.1 == key) with
  | some kv => kv.2
  | none => none

/-- The ValidationResult record. -/
structure ValidationResult where
  valid : Bool
  errors : List ValidationError
  warnings : List String

/-- The warning text emitted for a raw-environment key that is not a
schema key. -/
def unusedWarning (key : String) : String :=
  "Environment variable \"" ++ key ++ "\" is not defined in schema"

/-- validateEnv from src/core/validator.ts: one parseValue call per
schema entry in declaration order, pushing each error; then one pass
over the raw environment keys pushing a warning for every defined value
whose key is not in the schema; `valid` is emptiness of the errors. -/
def validateEnv (env : Env) (schema : Schema) : ValidationResult :=
  let errors := schema.foldl
    (fun errors kv =>
      match (parseValue (envGet env kv.1) kv.2 kv.1).error with
      | some error => errors ++ [error]
      | none => errors) []
  let schemaKeys := schema.map Prod.fst
  let warnings := env.foldl
    (fun warnings kv =>
      if ¬ schemaKeys.contains kv.1 ∧ kv.2 ≠ none then warnings ++ [unusedWarning kv.1]
      else warnings) []
  { valid := errors.isEmpty, errors := errors, warnings := warnings }

/-- One block of formatValidationErrors: variable and message, then an
"Expected:" line when `expected` is truthy (present and non-empty), then
a "Received:" line when `received` is not undefined. -/
def formatValidationError (error : ValidationError) : String :=
  let msg := "  ✘ " ++ error.varName ++ ": " ++ error.message
  let msg :=
    match error.expected with
    | some expected => if expected = "" then msg else msg ++ "\n    Expected: " ++ expected
    | none => msg
  match error.received with
  | some received => msg ++ "\n    Received: " ++ received
  | none => msg

/-- formatValidationErrors from src/core/validator.ts: blocks joined by
a blank line. -/
def formatValidationErrors (errors : List ValidationError) : String :=
  String.intercalate "\n\n" (errors.map formatValidationError)

/-- parseEnv from src/core/validator.ts: the same per-key pass, storing
each successfully coerced value under its key and collecting errors;
with any error the whole call fails (JavaScript `throw new Error`,
modelled by `Except.error` carrying the thrown message) and no mapping
is returned; otherwise the accumulated typed mapping is returned. -/
def parseEnv (env : Env) (schema : Schema) :
    Except String (List (String × JsValue)) :=
  let step := schema.foldl
    (fun acc kv =>
      let r := parseValue (envGet env kv.1) kv.2 kv.1
      match r.error with
      | some error => (acc.1, acc.2 ++ [error])
      | none => (acc.1 ++ [(kv.1, r.value)], acc.2)) ([], [])
  if step.2.isEmpty then .ok step.1
  else .error ("Environment validation failed:\n" ++ formatValidationErrors step.2)

/-! ## Characterisations of the validator's accumulator loops -/

/-- The error-accumulating loop of validateEnv and parseEnv collects, in
schema order, exactly the errors of the per-entry parses. -/
lemma errorsFold_eq (env : Env) (schema : Schema) :
    ∀ init, schema.foldl
        (fun errors kv =>
          match (parseValue (envGet env kv.1) kv.2 kv.1).error with
          | some error => errors ++ [error]
          | none => errors) init
      = init ++ schema.filterMap (fun kv => (parseValue (envGet env kv.1) kv.2 kv.1).error) := by
  induction schema with
  | nil => intro init; simp
  | cons kv rest ih =>
    intro init
    cases h : (parseValue (envGet env kv.1) kv.2 kv.1).error with
    | none => simp [h, ih, List.filterMap_cons]
    | some e => simp [h, ih, List.filterMap_cons]

/-- The errors field of validateEnv, closed form. -/
lemma validateEnv_errors_eq (env : Env) (schema : Schema) :
    (validateEnv env schema).errors
      = schema.filterMap (fun kv => (parseValue (envGet env kv.1) kv.2 kv.1).error) := by
  simp [validateEnv, errorsFold_eq]

/-- The valid field of validateEnv is emptiness of its errors field. -/
lemma validateEnv_valid_eq (env : Env) (schema : Schema) :
    (validateEnv env schema).valid = (validateEnv env schema).errors.isEmpty := by
  simp [validateEnv]

/-- The warning-accumulating loop of validateEnv, closed form. -/
lemma warningsFold_eq (keys : List String) (env : Env) :
    ∀ init, env.foldl
        (fun warnings kv =>
          if ¬ keys.contains kv.1 ∧ kv.2 ≠ none then warnings ++ [unusedWarning kv.1]
          else warnings) init
      = init ++ env.filterMap
          (fun kv =>
            if ¬ keys.contains kv.1 ∧ kv.2 ≠ none then some (unusedWarning kv.1) else none) := by
  induction env with
  | nil => intro init; simp
  | cons kv rest ih =>
    intro init
    simp only [List.foldl_cons, List.filterMap_cons]
    by_cases h : ¬ keys.contains kv.1 ∧ kv.2 ≠ none
    · rw [if_pos h, if_pos h, ih (init ++ [unusedWarning kv.1])]
      simp
    · rw [if_neg h, if_neg h]
      exact ih init

/-- The warnings field of validateEnv, closed form. -/
lemma validateEnv_warnings_eq (env : Env) (schema : Schema) :
    (validateEnv env schema).warnings
      = env.filterMap
          (fun kv =>
            if ¬ (schema.map Prod.fst).contains kv.1 ∧ kv.2 ≠ none then
              some (unusedWarning kv.1)
            else none) := by
  simp [validateEnv, warningsFold_eq]

/-- The value/error accumulating loop of parseEnv, closed form. -/
lemma parseEnvFold_eq (env : Env) (schema : Schema) :
    ∀ (vs : List (String × JsValue)) (es : List ValidationError),
      schema.foldl
        (fun acc kv =>
          match (parseValue (envGet env kv.1) kv.2 kv.1).error with
          | some error => (acc.1, acc.2 ++ [error])
          | none => (acc.1 ++ [(kv.1, (parseValue (envGet env kv.1) kv.2 kv.1).value)], acc.2))
        (vs, es)
      = (vs ++ schema.filterMap
            (fun kv =>
              match parseValue (envGet env kv.1) kv.2 kv.1 with
              | ⟨v, none⟩ => some (kv.1, v)
              | _ => none),
         es ++ schema.filterMap (fun kv => (parseValue (envGet env kv.1) kv.2 kv.1).error)) := by
  induction schema with
  | nil => intro vs es; simp
  | cons kv rest ih =>
    intro vs es
    rcases h : parseValue (envGet env kv.1) kv.2 kv.1 with ⟨v, e⟩
    cases e with
    | none => simp [h, ih, List.filterMap_cons]
    | some err => simp [h, ih, List.filterMap_cons]

/-- parseEnv, closed form. -/
lemma parseEnv_eq (env : Env) (schema : Schema) :
    parseEnv env schema
      = (if (schema.filterMap (fun kv => (parseValue (envGet env kv.1) kv.2 kv.1).error)).isEmpty
         then .ok (schema.filterMap
            (fun kv =>
              match parseValue (envGet env kv.1) kv.2 kv.1 with
              | ⟨v, none⟩ => some (kv.1, v)
              | _ => none))
         else .error ("Environment validation failed:\n" ++
            formatValidationErrors
              (schema.filterMap (fun kv => (parseValue (envGet env kv.1) kv.2 kv.1).error)))) := by
  simp only [parseEnv]
  rw [parseEnvFold_eq]
  simp

/-! ## Every error names the variable it was produced for -/

lemma strPatternCheck_varName {value : String} {config : EnvVarConfig} {variableName : String}
    {e : ValidationError} (h : (strPatternCheck value config variableName).error = some e) :
    e.varName = variableName := by
  unfold strPatternCheck at h
  split at h
  · split at h
    · simp at h
    · simp at h; subst h; rfl
  · simp at h

lemma strMaxCheck_varName {value : String} {config : EnvVarConfig} {variableName : String}
    {e : ValidationError} (h : (strMaxCheck value config variableName).error = some e) :
    e.varName = variableName := by
  unfold strMaxCheck at h
  split at h
  · split at h
    · simp at h; subst h; rfl
    · exact strPatternCheck_varName h
  · exact strPatternCheck_varName h

lemma parseString_varName {value : String} {config : EnvVarConfig} {variableName : String}
    {e : ValidationError} (h : (parseString value config variableName).error = some e) :
    e.varName = variableName := by
  unfold parseString at h
  split at h
  · split at h
    · simp at h; subst h; rfl
    · exact strMaxCheck_varName h
  · exact strMaxCheck_varName h

lemma numMaxCheck_varName {num : ℚ} {config : EnvVarConfig} {variableName : String}
    {e : ValidationError} (h : (numMaxCheck num config variableName).error = some e) :
    e.varName = variableName := by
  unfold numMaxCheck at h
  split at h
  · split at h
    · simp at h; subst h; rfl
    · simp at h
  · simp at h

lemma numMinCheck_varName {num : ℚ} {config : EnvVarConfig} {variableName : String}
    {e : ValidationError} (h : (numMinCheck num config variableName).error = some e) :
    e.varName = variableName := by
  unfold numMinCheck at h
  split at h
  · split at h
    · simp at h; subst h; rfl
    · exact numMaxCheck_varName h
  · exact numMaxCheck_varName h

lemma parseNumber_varName {value : String} {config : EnvVarConfig} {variableName : String}
    {e : ValidationError} (h : (parseNumber value config variableName).error = some e) :
    e.varName = variableName := by
  unfold parseNumber at h
  split at h
  · simp at h; subst h; rfl
  · split at h
    · simp at h; subst h; rfl
    · exact numMinCheck_varName h

lemma parseBoolean_varName {value : String} {config : EnvVarConfig} {variableName : String}
    {e : ValidationError} (h : (parseBoolean value config variableName).error = some e) :
    e.varName = variableName := by
  simp only [parseBoolean] at h
  split at h
  · simp at h
  · split at h
    · simp at h
    · simp at h; subst h; rfl

lemma parseUrl_varName {value : String} {config : EnvVarConfig} {variableName : String}
    {e : ValidationError} (h : (parseUrl value config variableName).error = some e) :
    e.varName = variableName := by
  unfold parseUrl at h
  split at h
  · split at h
    · split at h
      · simp at h
      · simp at h; subst h; rfl
    · simp at h
  · simp at h; subst h; rfl

lemma parseJson_varName {value : String} {config : EnvVarConfig} {variableName : String}
    {e : ValidationError} (h : (parseJson value config variableName).error = some e) :
    e.varName = variableName := by
  unfold parseJson at h
  split at h
  · simp at h
  · simp at h; subst h; rfl

lemma parseEnum_varName {value : String} {config : EnvVarConfig} {variableName : String}
    {e : ValidationError} (h : (parseEnum value config variableName).error = some e) :
    e.varName = variableName := by
  unfold parseEnum at h
  split at h
  · simp at h
  · simp at h; subst h; rfl

/-- Every error record parseValue returns names exactly the variable it
was invoked for. -/
lemma parseValue_varName {rawValue : Option String} {config : EnvVarConfig}
    {variableName : String} {e : ValidationError}
    (h : (parseValue rawValue config variableName).error = some e) :
    e.varName = variableName := by
  simp only [parseValue] at h
  split at h
  · split at h
    · simp at h
    · split at h
      · simp at h; subst h; rfl
      · simp at h
  · split at h
    · exact parseString_varName h
    · exact parseNumber_varName h
    · exact parseBoolean_varName h
    · exact parseUrl_varName h
    · exact parseJson_varName h
    · exact parseEnum_varName h
    · simp at h; subst h; rfl

/-! ## Dispatch of parseValue on a non-empty raw string -/

/-- With a non-empty raw string present, parseValue skips the absence
handling and dispatches on the type tag. -/
lemma parseValue_dispatch (value : String) (config : EnvVarConfig) (variableName : String)
    (hne : value ≠ "") :
    parseValue (some value) config variableName =
      match config.type with
      | .string => parseString value config variableName
      | .number => parseNumber value config variableName
      | .boolean => parseBoolean value config variableName
      | .url => parseUrl value config variableName
      | .json => parseJson value config variableName
      | .enum => parseEnum value config variableName
      | .unknown tag =>
        ⟨.undef, some
          { varName := variableName
            message := "Unknown type: " ++ tag
            received := some value }⟩ := by
  have hne' : ¬ ((some value : Option String) = none ∨ (some value : Option String) = some "") := by
    simp [hne]
  simp only [parseValue, if_neg hne', Option.getD_some]

/-- Specialisation of the dispatch to a boolean descriptor. -/
lemma parseValue_as_boolean (value : String) (config : EnvVarConfig) (variableName : String)
    (hty : config.type = .boolean) (hne : value ≠ "") :
    parseValue (some value) config variableName = parseBoolean value config variableName := by
  rw [parseValue_dispatch value config variableName hne, hty]

/-- Specialisation of the dispatch to a number descriptor. -/
lemma parseValue_as_number (value : String) (config : EnvVarConfig) (variableName : String)
    (hty : config.type = .number) (hne : value ≠ "") :
    parseValue (some value) config variableName = parseNumber value config variableName := by
  rw [parseValue_dispatch value config variableName hne, hty]

/-- Specialisation of the dispatch to a url descriptor. -/
lemma parseValue_as_url (value : String) (config : EnvVarConfig) (variableName : String)
    (hty : config.type = .url) (hne : value ≠ "") :
    parseValue (some value) config variableName = parseUrl value config variableName := by
  rw [parseValue_dispatch value config variableName hne, hty]

/-! ## Claim theorems -/

/-- C10: for every descriptor with a default defined and absent or empty
raw input, parseValue returns the default unchanged with no error — no
type, constraint, or membership check is applied to the default, however
ill-fitting it is for the field. -/
theorem parseValue_default_unchecked (rawValue : Option String) (config : EnvVarConfig)
    (variableName : String) (d : JsValue)
    (habs : rawValue = none ∨ rawValue = some "") (hdef : config.default = some d) :
    parseValue rawValue config variableName = ⟨d, none⟩ := by
  simp only [parseValue, if_pos habs, hdef]

/-- C10 witness: a default that is of the wrong type for the field and
violates every numeric constraint (a string default on an integer number
field with bounds) is still returned unchanged with no error. -/
theorem parseValue_default_unchecked_witness :
    parseValue none
      { type := .number, min := some 10, max := some 20, integer := some true,
        default := some (.str "oops") } "PORT"
      = ⟨.str "oops", none⟩ :=
  parseValue_default_unchecked none _ "PORT" (.str "oops") (Or.inl rfl) rfl

/-- C1: for absent or empty raw input, parseValue resolves in a fixed
order: a defined default is returned with no error regardless of the
required flag; otherwise, unless required is explicitly false, a
MissingRequired error is returned with message "Required environment
variable is missing", expected "\<type> value", received "undefined";
otherwise no value and no error. -/
theorem parseValue_absent_resolution (rawValue : Option String) (config : EnvVarConfig)
    (variableName : String) (habs : rawValue = none ∨ rawValue = some "") :
    (∀ d, config.default = some d → parseValue rawValue config variableName = ⟨d, none⟩)
    ∧ (config.default = none → config.required ≠ some false →
        parseValue rawValue config variableName =
          ⟨.undef, some
            { varName := variableName
              message := "Required environment variable is missing"
              expected := some (config.type.name ++ " value")
              received := some "undefined" }⟩)
    ∧ (config.default = none → config.required = some false →
        parseValue rawValue config variableName = ⟨.undef, none⟩) := by
  refine ⟨?_, ?_, ?_⟩
  · intro d hd
    simp only [parseValue, if_pos habs, hd]
  · intro hd hr
    simp only [parseValue, if_pos habs, hd, if_pos hr]
  · intro hd hr
    simp only [parseValue, if_pos habs, hd]
    rw [if_neg]
    simp [hr]

/-- C1 witness: the three branches at concrete descriptors — a default
beats a true required flag, a required-by-default key with no default
errors, an explicitly optional key with no default yields no value. -/
theorem parseValue_absent_resolution_witness :
    parseValue none { type := .number, required := some true, default := some (.num 3000) } "PORT"
        = ⟨.num 3000, none⟩
    ∧ parseValue (some "") { type := .string } "HOST"
        = ⟨.undef, some
            { varName := "HOST"
              message := "Required environment variable is missing"
              expected := some "string value"
              received := some "undefined" }⟩
    ∧ parseValue none { type := .boolean, required := some false } "DEBUG" = ⟨.undef, none⟩ :=
  ⟨(parseValue_absent_resolution none _ "PORT" (Or.inl rfl)).1 _ rfl,
   (parseValue_absent_resolution (some "") _ "HOST" (Or.inr rfl)).2.1 rfl (by decide),
   (parseValue_absent_resolution none _ "DEBUG" (Or.inl rfl)).2.2 rfl rfl⟩

/-- C9: parseValue on the empty string is identical to parseValue on an
absent value, for every descriptor — the equivalence covers every branch
of absence handling; in particular a string field can only get the
MissingRequired error for the empty string, never a length or pattern
error. -/
theorem parseValue_empty_eq_absent (config : EnvVarConfig) (variableName : String) :
    parseValue (some "") config variableName = parseValue none config variableName
    ∧ (∀ e, config.type = .string →
        (parseValue (some "") config variableName).error = some e →
        e.message = "Required environment variable is missing") := by
  constructor
  · simp [parseValue]
  · intro e _ h
    unfold parseValue at h
    rw [if_pos (Or.inr rfl : (some "" : Option String) = none ∨
        (some "" : Option String) = some "")] at h
    split at h
    · simp at h
    · split at h
      · simp at h
        subst h
        rfl
      · simp at h

/-- C9 witness: at a string descriptor with a minLength constraint, the
empty string resolves exactly like absence, and the only error either
can produce is the MissingRequired one. -/
theorem parseValue_empty_eq_absent_witness :
    parseValue (some "") { type := .string, minLength := some 5 } "KEY"
        = parseValue none { type := .string, minLength := some 5 } "KEY"
    ∧ ValidationError.message
        { varName := "KEY"
          message := "Required environment variable is missing"
          expected := some "string value"
          received := some "undefined" }
        = "Required environment variable is missing" :=
  ⟨(parseValue_empty_eq_absent _ "KEY").1,
   (parseValue_empty_eq_absent { type := .string, minLength := some 5 } "KEY").2 _ rfl rfl⟩

/-- C7: for a boolean descriptor and a non-empty raw string, parseValue
lower-cases and trims the string; a result in the truthy group yields
true with no error, in the falsy group false with no error, and anything
else an InvalidBoolean error (with the stated message, expected text,
and the raw string as received) with returned value false. -/
theorem parseValue_boolean_groups (value : String) (config : EnvVarConfig)
    (variableName : String) (hty : config.type = .boolean) (hne : value ≠ "") :
    ((jsTrim (jsToLower value) = "true" ∨ jsTrim (jsToLower value) = "1" ∨ jsTrim (jsToLower value) = "yes") →
        parseValue (some value) config variableName = ⟨.boolV true, none⟩)
    ∧ ((jsTrim (jsToLower value) = "false" ∨ jsTrim (jsToLower value) = "0" ∨ jsTrim (jsToLower value) = "no") →
        parseValue (some value) config variableName = ⟨.boolV false, none⟩)
    ∧ (jsTrim (jsToLower value) ∉ (["true", "1", "yes", "false", "0", "no"] : List String) →
        parseValue (some value) config variableName =
          ⟨.boolV false, some
            { varName := variableName
              message := "Invalid boolean value"
              expected := some "true, false, 1, 0, yes, or no"
              received := some value }⟩) := by
  rw [parseValue_as_boolean value config variableName hty hne]
  refine ⟨?_, ?_, ?_⟩
  · intro h
    simp only [parseBoolean]
    rw [if_pos h]
  · intro h
    have h' : ¬ (jsTrim (jsToLower value) = "true" ∨ jsTrim (jsToLower value) = "1" ∨
        jsTrim (jsToLower value) = "yes") := by
      rcases h with h | h | h <;> rw [h] <;> decide
    simp only [parseBoolean]
    rw [if_neg h', if_pos h]
  · intro h
    simp only [List.mem_cons, List.not_mem_nil, or_false, not_or] at h
    obtain ⟨h1, h2, h3, h4, h5, h6⟩ := h
    simp only [parseBoolean]
    rw [if_neg (by simp [h1, h2, h3]), if_neg (by simp [h4, h5, h6])]

/-- C7 witness: concrete inputs for the three groups, including an
upper-case padded truthy form. -/
theorem parseValue_boolean_groups_witness :
    parseValue (some " YES") { type := .boolean } "A" = ⟨.boolV true, none⟩
    ∧ parseValue (some "0") { type := .boolean } "B" = ⟨.boolV false, none⟩
    ∧ parseValue (some "maybe") { type := .boolean } "C" =
        ⟨.boolV false, some
          { varName := "C"
            message := "Invalid boolean value"
            expected := some "true, false, 1, 0, yes, or no"
            received := some "maybe" }⟩ :=
  ⟨(parseValue_boolean_groups " YES" _ "A" rfl (by decide)).1 (by decide),
   (parseValue_boolean_groups "0" _ "B" rfl (by decide)).2.1 (by decide),
   (parseValue_boolean_groups "maybe" _ "C" rfl (by decide)).2.2 (by decide)⟩

/-- C8: for a url descriptor and a non-empty raw string that parses as an
absolute URL, with no allow-list the raw string is returned unchanged;
with an allow-list the scheme without its trailing colon must be a member
or an InvalidProtocol error is returned; every success returns exactly
the original raw string as the value. -/
theorem parseValue_url_protocols (value : String) (config : EnvVarConfig)
    (variableName : String) (u : URLRec) (hty : config.type = .url) (hne : value ≠ "")
    (hurl : newURL value = some u) :
    (config.protocols = none →
        parseValue (some value) config variableName = ⟨.str value, none⟩)
    ∧ (∀ ps, config.protocols = some ps → sliceDropLast u.protocol ∈ ps →
        parseValue (some value) config variableName = ⟨.str value, none⟩)
    ∧ (∀ ps, config.protocols = some ps → sliceDropLast u.protocol ∉ ps →
        parseValue (some value) config variableName =
          ⟨.str value, some
            { varName := variableName
              message := "Invalid URL protocol"
              expected := some ("URL with protocol: " ++ String.intercalate ", " ps)
              received := some (sliceDropLast u.protocol) }⟩) := by
  rw [parseValue_as_url value config variableName hty hne]
  refine ⟨?_, ?_, ?_⟩
  · intro hp
    simp [parseUrl, hurl, hp]
  · intro ps hp hmem
    simp only [parseUrl, hurl, hp]
    rw [if_pos]
    exact List.elem_eq_true_of_mem hmem
  · intro ps hp hmem
    simp only [parseUrl, hurl, hp]
    rw [if_neg]
    intro hc
    exact hmem (List.mem_of_elem_eq_true hc)

/-- C8 witness: an allow-listed scheme passes returning the raw string,
and a non-listed scheme is rejected with the parsed scheme as received. -/
theorem parseValue_url_protocols_witness :
    parseValue (some "https://example.com") { type := .url, protocols := some ["http", "https"] }
        "U" = ⟨.str "https://example.com", none⟩
    ∧ parseValue (some "ftp://example.com") { type := .url, protocols := some ["http", "https"] }
        "V" =
        ⟨.str "ftp://example.com", some
          { varName := "V"
            message := "Invalid URL protocol"
            expected := some "URL with protocol: http, https"
            received := some "ftp" }⟩ :=
  ⟨(parseValue_url_protocols "https://example.com" _ "U" ⟨"https:", "//example.com"⟩ rfl
      (by decide) rfl).2.1 ["http", "https"] rfl (by decide),
   (parseValue_url_protocols "ftp://example.com" _ "V" ⟨"ftp:", "//example.com"⟩ rfl
      (by decide) rfl).2.2 ["http", "https"] rfl (by decide)⟩

/-- The max check passes (no error) exactly when the parsed number is at
most every configured maximum — the bound is inclusive. -/
lemma numMaxCheck_error_none_iff (num : ℚ) (config : EnvVarConfig) (variableName : String) :
    (numMaxCheck num config variableName).error = none ↔ ∀ mx ∈ config.max, num ≤ mx := by
  cases h : config.max with
  | none => simp [numMaxCheck, h]
  | some mx =>
    by_cases hlt : num > mx
    · simp only [numMaxCheck, h, if_pos hlt]
      simp [Option.mem_def, not_le.mpr hlt]
    · simp only [numMaxCheck, h, if_neg hlt]
      simp [Option.mem_def, not_lt.mp hlt]

/-- The min-then-max check chain passes exactly when the parsed number
lies inclusively within both configured bounds. -/
lemma numMinCheck_error_none_iff (num : ℚ) (config : EnvVarConfig) (variableName : String) :
    (numMinCheck num config variableName).error = none ↔
      (∀ mn ∈ config.min, mn ≤ num) ∧ (∀ mx ∈ config.max, num ≤ mx) := by
  cases h : config.min with
  | none => simp [numMinCheck, h, numMaxCheck_error_none_iff]
  | some mn =>
    by_cases hlt : num < mn
    · simp only [numMinCheck, h, if_pos hlt]
      simp [Option.mem_def, not_le.mpr hlt]
    · simp only [numMinCheck, h, if_neg hlt]
      simp [numMaxCheck_error_none_iff, Option.mem_def, not_lt.mp hlt]

/-- C5: for a number descriptor and a non-empty raw string whose Number()
conversion yields a valid number, the checks run in the order integer,
then min, then max, with the first failure winning; the bounds are
inclusive: the parse is error-free exactly when the integer flag is
satisfied and the value lies within [min, max], a value strictly below
min yields the below-minimum error, strictly above max the
exceeds-maximum error. -/
theorem parseValue_number_check_order (value : String) (config : EnvVarConfig)
    (variableName : String) (num : ℚ) (hty : config.type = .number) (hne : value ≠ "")
    (hnum : jsNumber value = some num) :
    ((config.integer.getD false ∧ num.den ≠ 1) →
        parseValue (some value) config variableName =
          ⟨.num num, some
            { varName := variableName
              message := "Value must be an integer"
              expected := some "integer"
              received := some value }⟩)
    ∧ (¬ (config.integer.getD false ∧ num.den ≠ 1) →
        ∀ mn, config.min = some mn → num < mn →
          parseValue (some value) config variableName =
            ⟨.num num, some
              { varName := variableName
                message := "Number is below minimum value (" ++ numToStr mn ++ ")"
                expected := some ("number >= " ++ numToStr mn)
                received := some (numToStr num) }⟩)
    ∧ (¬ (config.integer.getD false ∧ num.den ≠ 1) → (∀ mn ∈ config.min, mn ≤ num) →
        ∀ mx, config.max = some mx → mx < num →
          parseValue (some value) config variableName =
            ⟨.num num, some
              { varName := variableName
                message := "Number exceeds maximum value (" ++ numToStr mx ++ ")"
                expected := some ("number <= " ++ numToStr mx)
                received := some (numToStr num) }⟩)
    ∧ ((parseValue (some value) config variableName).error = none ↔
        ¬ (config.integer.getD false ∧ num.den ≠ 1) ∧ (∀ mn ∈ config.min, mn ≤ num)
          ∧ (∀ mx ∈ config.max, num ≤ mx)) := by
  rw [parseValue_as_number value config variableName hty hne]
  simp only [parseNumber, hnum]
  refine ⟨?_, ?_, ?_, ?_⟩
  · intro hint
    rw [if_pos hint]
  · intro hint mn hmn hlt
    rw [if_neg hint]
    simp only [numMinCheck, hmn, if_pos hlt]
  · intro hint hmin mx hmx hlt
    rw [if_neg hint]
    cases h : config.min with
    | none => simp only [numMinCheck, h, numMaxCheck, hmx, if_pos hlt]
    | some mn =>
      have hle := hmin mn (by simp [h])
      simp only [numMinCheck, h, if_neg (not_lt.mpr hle), numMaxCheck, hmx, if_pos hlt]
  · by_cases hint : config.integer.getD false ∧ num.den ≠ 1
    · rw [if_pos hint]
      simp [hint]
    · rw [if_neg hint]
      simp [numMinCheck_error_none_iff, hint]

/-- C5 witness: with bounds [10, 20] and the integer flag, the value 15
passes every check, the boundary values 10 and 20 pass inclusively, 5 is
rejected as below minimum, 25 as exceeding maximum. -/
theorem parseValue_number_check_order_witness :
    ((parseValue (some "15")
        { type := .number, integer := some true, min := some 10, max := some 20 } "PORT").error
      = none)
    ∧ ((parseValue (some "10")
        { type := .number, integer := some true, min := some 10, max := some 20 } "PORT").error
      = none)
    ∧ ((parseValue (some "20")
        { type := .number, integer := some true, min := some 10, max := some 20 } "PORT").error
      = none)
    ∧ parseValue (some "5")
        { type := .number, integer := some true, min := some 10, max := some 20 } "PORT"
      = ⟨.num 5, some
          { varName := "PORT"
            message := "Number is below minimum value (10)"
            expected := some "number >= 10"
            received := some "5" }⟩
    ∧ parseValue (some "25")
        { type := .number, integer := some true, min := some 10, max := some 20 } "PORT"
      = ⟨.num 25, some
          { varName := "PORT"
            message := "Number exceeds maximum value (20)"
            expected := some "number <= 20"
            received := some "25" }⟩ :=
  ⟨(parseValue_number_check_order "15" _ "PORT" 15 rfl (by decide) (by decide)).2.2.2.mpr
      ⟨by decide, by simp; decide, by simp; decide⟩,
   (parseValue_number_check_order "10" _ "PORT" 10 rfl (by decide) (by decide)).2.2.2.mpr
      ⟨by decide, by simp, by simp; decide⟩,
   (parseValue_number_check_order "20" _ "PORT" 20 rfl (by decide) (by decide)).2.2.2.mpr
      ⟨by decide, by simp; decide, by simp⟩,
   (parseValue_number_check_order "5" _ "PORT" 5 rfl (by decide) (by decide)).2.1
      (by decide) 10 rfl (by decide),
   (parseValue_number_check_order "25" _ "PORT" 25 rfl (by decide) (by decide)).2.2.1
      (by decide) (by simp; decide) 20 rfl (by decide)⟩

/-- C6 counterexample: with a schema holding one explicitly optional
string key and the empty raw environment, parseEnv succeeds and the
returned mapping does contain the key OPT — bound to undefined — so the
key is present, not absent as claimed. -/
theorem parseEnv_optional_key_present_cex :
    parseEnv [] [("OPT", { type := .string, required := some false })]
        = .ok [("OPT", JsValue.undef)]
    ∧ "OPT" ∈ ([("OPT", JsValue.undef)] : List (String × JsValue)).map Prod.fst :=
  ⟨rfl, by decide⟩

/-- C6 amended: on a successful parseEnv, an explicitly optional schema
key with no default and absent or empty raw input is present in the
returned mapping bound to undefined — never null nor a placeholder — so
reading the key yields undefined, as absence would. -/
theorem parseEnv_optional_absent_binds_undef (env : Env) (schema : Schema)
    (result : List (String × JsValue)) (hok : parseEnv env schema = .ok result)
    (key : String) (config : EnvVarConfig) (hk : (key, config) ∈ schema)
    (hopt : config.required = some false) (hdef : config.default = none)
    (habs : envGet env key = none ∨ envGet env key = some "") :
    (key, JsValue.undef) ∈ result := by
  rw [parseEnv_eq] at hok
  split at hok
  · have hres : result = schema.filterMap
        (fun kv =>
          match parseValue (envGet env kv.1) kv.2 kv.1 with
          | ⟨v, none⟩ => some (kv.1, v)
          | _ => none) := by
      exact (Except.ok.inj hok).symm
    have hpv : parseValue (envGet env key) config key = ⟨.undef, none⟩ := by
      simp only [parseValue, if_pos habs, hdef]
      rw [if_neg]
      simp [hopt]
    rw [hres]
    exact List.mem_filterMap.mpr ⟨(key, config), hk, by rw [hpv]⟩
  · cases hok

/-- C6 amended witness: the optional key of the counterexample schema is
indeed bound to undefined in the returned mapping. -/
theorem parseEnv_optional_absent_binds_undef_witness :
    ("OPT", JsValue.undef) ∈ ([("OPT", JsValue.undef)] : List (String × JsValue)) :=
  parseEnv_optional_absent_binds_undef [] [("OPT", { type := .string, required := some false })]
    [("OPT", JsValue.undef)] rfl "OPT" { type := .string, required := some false }
    (List.mem_singleton.mpr rfl) rfl rfl (Or.inl rfl)

/-- Every error collected by the per-entry pass names a schema key. -/
lemma errors_varName_mem (env : Env) (schema : Schema) {e : ValidationError}
    (he : e ∈ schema.filterMap fun kv => (parseValue (envGet env kv.1) kv.2 kv.1).error) :
    e.varName ∈ schema.map Prod.fst := by
  obtain ⟨kv, hkv, herr⟩ := List.mem_filterMap.mp he
  rw [parseValue_varName herr]
  exact List.mem_map.mpr ⟨kv, hkv, rfl⟩

/-- C2: validateEnv is a total function into ValidationResult — it never
raises — while parseEnv fails exactly when at least one schema entry's
parse produces an error; a failure carries a message beginning with
"Environment validation failed:" and no typed mapping is returned. -/
theorem parseEnv_raises_iff_error (env : Env) (schema : Schema) :
    (∃ r : ValidationResult, validateEnv env schema = r)
    ∧ ((∃ msg, parseEnv env schema = .error msg) ↔
        ∃ kv ∈ schema, (parseValue (envGet env kv.1) kv.2 kv.1).error ≠ none)
    ∧ (∀ msg, parseEnv env schema = .error msg →
        ∃ rest, msg = "Environment validation failed:" ++ rest)
    ∧ (∀ msg, parseEnv env schema = .error msg →
        ∀ result, ¬ parseEnv env schema = .ok result) := by
  refine ⟨⟨validateEnv env schema, rfl⟩, ?_, ?_, ?_⟩
  · rw [parseEnv_eq]
    by_cases hemp :
        (schema.filterMap fun kv => (parseValue (envGet env kv.1) kv.2 kv.1).error).isEmpty
    · rw [if_pos hemp]
      rw [List.isEmpty_iff, List.filterMap_eq_nil_iff] at hemp
      constructor
      · rintro ⟨msg, h⟩
        cases h
      · rintro ⟨kv, hkv, herr⟩
        exact absurd (hemp kv hkv) herr
    · rw [if_neg hemp]
      constructor
      · intro _
        rw [List.isEmpty_iff] at hemp
        obtain ⟨e, he⟩ := List.exists_mem_of_ne_nil _ hemp
        obtain ⟨kv, hkv, herr⟩ := List.mem_filterMap.mp he
        exact ⟨kv, hkv, by rw [herr]; exact Option.some_ne_none e⟩
      · intro _
        exact ⟨_, rfl⟩
  · intro msg h
    rw [parseEnv_eq] at h
    split at h
    · cases h
    · refine ⟨"\n" ++ formatValidationErrors
        (schema.filterMap fun kv => (parseValue (envGet env kv.1) kv.2 kv.1).error), ?_⟩
      rw [← String.append_assoc]
      exact (Except.error.inj h).symm
  · intro msg h result hok
    rw [h] at hok
    cases hok

/-- C2 witness: a schema whose single key fails numeric parsing makes
parseEnv fail. -/
theorem parseEnv_raises_iff_error_witness :
    ∃ msg, parseEnv [("PORT", some "abc")] [("PORT", { type := .number })] = .error msg :=
  (parseEnv_raises_iff_error _ _).2.1.mpr
    ⟨("PORT", { type := .number }), List.mem_singleton.mpr rfl, by decide⟩

/-- C3: validity is exactly emptiness of the errors sequence — warnings
never affect it; every error names a schema key, and every warning stems
from a key with a defined raw value that is not a schema key, carrying
the fixed warning text; every such key does produce its warning. -/
theorem validateEnv_valid_errors_warnings (env : Env) (schema : Schema) :
    ((validateEnv env schema).valid = true ↔ (validateEnv env schema).errors = [])
    ∧ (∀ e ∈ (validateEnv env schema).errors, e.varName ∈ schema.map Prod.fst)
    ∧ (∀ w ∈ (validateEnv env schema).warnings,
        ∃ key v, (key, some v) ∈ env ∧ key ∉ schema.map Prod.fst ∧
          w = "Environment variable \"" ++ key ++ "\" is not defined in schema")
    ∧ (∀ key v, (key, some v) ∈ env → key ∉ schema.map Prod.fst →
        "Environment variable \"" ++ key ++ "\" is not defined in schema"
          ∈ (validateEnv env schema).warnings) := by
  refine ⟨?_, ?_, ?_, ?_⟩
  · rw [validateEnv_valid_eq, List.isEmpty_iff]
  · intro e he
    rw [validateEnv_errors_eq] at he
    exact errors_varName_mem env schema he
  · intro w hw
    rw [validateEnv_warnings_eq] at hw
    obtain ⟨kv, hkv, hsome⟩ := List.mem_filterMap.mp hw
    by_cases hc : ¬ (schema.map Prod.fst).contains kv.1 ∧ kv.2 ≠ none
    · obtain ⟨v, hv⟩ := Option.ne_none_iff_exists'.mp hc.2
      refine ⟨kv.1, v, ?_, ?_, ?_⟩
      · have hkv' : kv = (kv.1, some v) := by
          rw [← hv]
        exact hkv' ▸ hkv
      · intro hmem
        exact hc.1 (List.elem_eq_true_of_mem hmem)
      · rw [if_pos hc] at hsome
        exact (Option.some.inj hsome).symm
    · rw [if_neg hc] at hsome
      cases hsome
  · intro key v hkv hnot
    rw [validateEnv_warnings_eq]
    refine List.mem_filterMap.mpr ⟨(key, some v), hkv, ?_⟩
    rw [if_pos]
    · rfl
    · exact ⟨fun hc => hnot (List.mem_of_elem_eq_true hc), by simp⟩

/-- C3 witness: a valid schema key beside an unschema'd key — validity
matches error emptiness and the unschema'd key yields its warning. -/
theorem validateEnv_valid_errors_warnings_witness :
    ((validateEnv [("PORT", some "3000"), ("EXTRA", some "x")]
          [("PORT", { type := .number })]).valid = true
      ↔ (validateEnv [("PORT", some "3000"), ("EXTRA", some "x")]
          [("PORT", { type := .number })]).errors = [])
    ∧ "Environment variable \"EXTRA\" is not defined in schema"
        ∈ (validateEnv [("PORT", some "3000"), ("EXTRA", some "x")]
            [("PORT", { type := .number })]).warnings :=
  ⟨(validateEnv_valid_errors_warnings _ _).1,
   (validateEnv_valid_errors_warnings _ _).2.2.2 "EXTRA" "x" (by decide) (by decide)⟩

/-- No error of the per-entry pass carries a key that is outside the
schema, so filtering the pass for such a key yields nothing. -/
lemma filter_key_eq_nil (env : Env) (k : String) (schema : Schema)
    (hk : k ∉ schema.map Prod.fst) :
    ((schema.filterMap fun kv => (parseValue (envGet env kv.1) kv.2 kv.1).error).filter
        (fun e => e.varName == k)) = [] := by
  rw [List.filter_eq_nil_iff]
  intro e he
  have hmem := errors_varName_mem env schema he
  simp only [beq_iff_eq]
  intro heq
  exact hk (heq ▸ hmem)

/-- With distinct schema keys, filtering the per-entry error pass for one
schema key yields exactly that key's own error (zero or one element). -/
lemma errors_filter_key (env : Env) :
    ∀ (schema : Schema), (schema.map Prod.fst).Nodup →
      ∀ kv ∈ schema,
        ((schema.filterMap fun kv' => (parseValue (envGet env kv'.1) kv'.2 kv'.1).error).filter
            (fun e => e.varName == kv.1))
          = ((parseValue (envGet env kv.1) kv.2 kv.1).error).toList := by
  intro schema
  induction schema with
  | nil =>
    intro _ kv hkv
    cases hkv
  | cons a rest ih =>
    intro hnd kv hkv
    rw [List.map_cons, List.nodup_cons] at hnd
    obtain ⟨ha, hnd'⟩ := hnd
    rw [List.filterMap_cons]
    rcases List.mem_cons.mp hkv with heq | hmem
    · subst heq
      cases he : (parseValue (envGet env kv.1) kv.2 kv.1).error with
      | none =>
        simp only [he]
        exact filter_key_eq_nil env kv.1 rest ha
      | some e =>
        simp only [he]
        rw [List.filter_cons, if_pos (beq_iff_eq.mpr (parseValue_varName he)),
          filter_key_eq_nil env kv.1 rest ha]
        rfl
    · cases he : (parseValue (envGet env a.1) a.2 a.1).error with
      | none =>
        simp only [he]
        exact ih hnd' kv hmem
      | some e =>
        simp only [he]
        rw [List.filter_cons, if_neg]
        · exact ih hnd' kv hmem
        · rw [beq_iff_eq, parseValue_varName he]
          intro heq
          exact ha (heq ▸ List.mem_map.mpr ⟨kv, hmem, rfl⟩)

/-- C4: validateEnv evaluates every schema key — the errors sequence is
the filterMap of the per-key parses in schema-declaration order, so one
key's failure never suppresses another's — and with distinct schema keys
each key contributes at most one error: exactly the error of its own
parse, wherever in the schema the other keys fail. -/
theorem validateEnv_per_key (env : Env) (schema : Schema)
    (hnd : (schema.map Prod.fst).Nodup) :
    ((validateEnv env schema).errors
        = schema.filterMap fun kv => (parseValue (envGet env kv.1) kv.2 kv.1).error)
    ∧ ∀ kv ∈ schema,
        ((validateEnv env schema).errors.filter (fun e => e.varName == kv.1))
          = ((parseValue (envGet env kv.1) kv.2 kv.1).error).toList := by
  refine ⟨validateEnv_errors_eq env schema, ?_⟩
  intro kv hkv
  rw [validateEnv_errors_eq]
  exact errors_filter_key env schema hnd kv hkv

/-- C4 witness: a two-key schema whose first key fails — the errors for
the failing key are exactly its own single error. -/
theorem validateEnv_per_key_witness :
    ((validateEnv [("A", some "oops")]
          [("A", { type := .number }), ("B", { type := .string, required := some false })]).errors.filter
        (fun e => e.varName == "A"))
      = ((parseValue (envGet [("A", some "oops")] "A") { type := .number } "A").error).toList :=
  (validateEnv_per_key [("A", some "oops")]
      [("A", { type := .number }), ("B", { type := .string, required := some false })]
      (by decide)).2 ("A", { type := .number }) (List.mem_cons_self _ _)

end SmartEnv
